import Mathlib

/-!
Shallow embedding of the XML-to-XAML converter (src/main.py, src/utilities.py).

XML documents are modelled as an inductive tree mirroring
xml.etree.ElementTree elements: tag, attributes (in document order,
values already stringified), optional text, and the child list.
Python exceptions escaping a function are modelled as `none` of an
`Option` result; functions that cannot raise return plain values.
Python's builtin `int()` string parsing is modelled for ASCII input
(optional whitespace, one optional sign, digits with single underscores
between digits); `str.strip` is modelled by stripping the whitespace
characters Lean's `Char.isWhitespace` recognizes.
-/

inductive XmlElem : Type where
  | mk : String → List (String × String) → Option String → List XmlElem → XmlElem

def XmlElem.tag : XmlElem → String
  | .mk t _ _ _ => t

def XmlElem.attrib : XmlElem → List (String × String)
  | .mk _ a _ _ => a

def XmlElem.text : XmlElem → Option String
  | .mk _ _ x _ => x

def XmlElem.children : XmlElem → List XmlElem
  | .mk _ _ _ c => c

mutual

/-- Proper descendants of an element, in document (preorder) order:
the order `ElementTree` uses for `.//tag` paths and `iter()`. -/
def XmlElem.descendants : XmlElem → List XmlElem
  | .mk _ _ _ cs => XmlElem.descendantsList cs

def XmlElem.descendantsList : List XmlElem → List XmlElem
  | [] => []
  | c :: cs => c :: XmlElem.descendants c ++ XmlElem.descendantsList cs

end

/-- Model of `elem.iter()`: the element itself followed by all its descendants. -/
def XmlElem.iterAll (e : XmlElem) : List XmlElem :=
  e :: e.descendants

def XmlElem.childrenWithTag (e : XmlElem) (t : String) : List XmlElem :=
  e.children.filter (fun c => c.tag = t)

/-- Model of `elem.find(tag)` for a single tag: first child with that tag. -/
def XmlElem.find (e : XmlElem) (t : String) : Option XmlElem :=
  (e.childrenWithTag t).head?

/-- Model of `elem.findtext(tag)`: `None` when no child matches; the matching
child's text, defaulted to the empty string, otherwise. -/
def XmlElem.findtext (e : XmlElem) (t : String) : Option String :=
  (e.find t).map (fun c => c.text.getD "")

/-- Model of `elem.findall('.//tag')`: all descendants with the tag, in document order. -/
def XmlElem.findallDesc (e : XmlElem) (t : String) : List XmlElem :=
  e.descendants.filter (fun c => c.tag = t)

/-- Model of `elem.find('.//tag')`: first descendant with the tag. -/
def XmlElem.findDesc (e : XmlElem) (t : String) : Option XmlElem :=
  (e.findallDesc t).head?

/-- Model of `elem.findall('a/b')`: for each child tagged `a` in order, its
children tagged `b`, concatenated in that nested order. -/
def XmlElem.findallPath2 (e : XmlElem) (a b : String) : List XmlElem :=
  (e.childrenWithTag a).flatMap (fun c => c.childrenWithTag b)

/-- Model of `elem.find('a/b')` (also written `./a/b`): first match of the path. -/
def XmlElem.findPath2 (e : XmlElem) (a b : String) : Option XmlElem :=
  (e.findallPath2 a b).head?

/-! ### Python dict and int-parsing models -/

/-- Assignment `d[k] = v` on a Python dict: replace the binding in place, or append. -/
def insertKV : List (String × String) → String → String → List (String × String)
  | [], k, v => [(k, v)]
  | (k', v') :: rest, k, v =>
    if k' = k then (k, v) :: rest else (k', v') :: insertKV rest k v

/-- Lookup `d.get(k, dflt)` on a dict built with `insertKV` (keys are unique). -/
def lookupD (d : List (String × String)) (k dflt : String) : String :=
  (d.lookup k).getD dflt

def digitVal (c : Char) : Nat := c.toNat - 48

/-- Digits after the first one: plain digits, with single underscores
allowed strictly between digits (Python `int` literal rule). -/
def digitsCore : Nat → List Char → Option Nat
  | acc, [] => some acc
  | acc, c :: cs =>
    if c.isDigit then digitsCore (10 * acc + digitVal c) cs
    else if c = '_' then
      match cs with
      | [] => none
      | c2 :: cs2 => if c2.isDigit then digitsCore (10 * acc + digitVal c2) cs2 else none
    else none

def digitsToNat : List Char → Option Nat
  | [] => none
  | c :: cs => if c.isDigit then digitsCore (digitVal c) cs else none

/-- Remove trailing whitespace. -/
def rstripWs : List Char → List Char
  | [] => []
  | c :: cs =>
    match rstripWs cs with
    | [] => if c.isWhitespace then [] else [c]
    | r => c :: r

/-- Model of `str.strip()`: remove leading and trailing whitespace. -/
def stripWs (cs : List Char) : List Char :=
  rstripWs (cs.dropWhile Char.isWhitespace)

def signedDigits : List Char → Option Int
  | [] => none
  | '+' :: cs => (digitsToNat cs).map (fun n => (n : Int))
  | '-' :: cs => (digitsToNat cs).map (fun n => -(n : Int))
  | cs => (digitsToNat cs).map (fun n => (n : Int))

/-- Python `int(s)` on a string: strip whitespace, optional sign, digits. -/
def pyIntParse (s : String) : Option Int :=
  signedDigits (stripWs s.toList)

/-! ### Color formatting (utilities.decimal_to_hex) -/

def padZeros (s : List Char) (w : Nat) : List Char :=
  List.replicate (w - s.length) '0' ++ s

/-- Python `"{:06X}".format(n)`: uppercase hex, zero-padded to width 6;
a negative value keeps its sign, the zero padding counting the sign. -/
def fmt06X (n : Int) : String :=
  if n < 0 then String.mk ('-' :: padZeros ((Nat.toDigits 16 n.natAbs).map Char.toUpper) 5)
  else String.mk (padZeros ((Nat.toDigits 16 n.natAbs).map Char.toUpper) 6)

/-- utilities.decimal_to_hex: `None`/empty/unparseable input falls back to
the fixed gray; otherwise the parsed integer is formatted as `#{:06X}`. -/
def decimal_to_hex (color_val : Option String) : String :=
  match color_val with
  | none => "#808080"
  | some s =>
    if s = "" then "#808080"
    else
      match pyIntParse s with
      | none => "#808080"
      | some n => "#" ++ fmt06X n

/-! ### Extraction helpers (utilities.py) -/

/-- utilities.has_crule: `shape_obj.find('RULE') is not None`. -/
def has_crule (shape_obj : XmlElem) : Bool :=
  (shape_obj.find "RULE").isSome

/-- Python truthiness of an optional string (`None` and `""` are falsy). -/
def pyTruthy (o : Option String) : Bool :=
  match o with
  | none => false
  | some s => !(s == "")

/-- Python `x or d` for an optional string `x` and default `d`. -/
def pyOr (o : Option String) (d : String) : String :=
  match o with
  | none => d
  | some s => if s = "" then d else s

/-- utilities.extract_children_text: direct-child text keyed by tag; for a
child with sub-elements, each sub-element's stripped text keyed
`"child.subchild"` instead (only non-empty stripped text is kept). -/
def extract_children_text (elem : XmlElem) : List (String × String) :=
  elem.children.foldl
    (fun data child =>
      if child.children.isEmpty = false then
        child.children.foldl
          (fun data subchild =>
            match subchild.text with
            | some txt =>
              if (String.mk (stripWs txt.toList)) ≠ "" then
                insertKV data (child.tag ++ "." ++ subchild.tag) (String.mk (stripWs txt.toList))
              else data
            | none => data)
          data
      else
        match child.text with
        | some txt =>
          if (String.mk (stripWs txt.toList)) ≠ "" then
            insertKV data child.tag (String.mk (stripWs txt.toList))
          else data
        | none => data)
    []

/-- utilities.extract_rule_details: tag → stripped text of the RULE
element's children, keeping only non-empty stripped text. -/
def extract_rule_details (rule_elem : XmlElem) : List (String × String) :=
  rule_elem.children.foldl
    (fun data child =>
      match child.text with
      | some txt =>
        if (String.mk (stripWs txt.toList)) ≠ "" then
          insertKV data child.tag (String.mk (stripWs txt.toList))
        else data
      | none => data)
    []

/-- Update `d.update(d2)` on Python dicts modelled as `insertKV` lists. -/
def updateKV (d d2 : List (String × String)) : List (String × String) :=
  d2.foldl (fun acc p => insertKV acc p.1 p.2) d

/-- utilities.extract_visuals: stroke from `Pen/Color`, fill from
`FillColor/Color`, thickness from `Style/StrokeThickness`; a `ShapeStyle`
sub-element supplies `LineColor`/`FillColor` fallbacks only for values
still falsy; all three outputs are defaulted at the end. -/
def extract_visuals (shape : XmlElem) : String × String × String :=
  let stroke : Option String :=
    (shape.find "Pen").map (fun pen => decimal_to_hex (pen.findtext "Color"))
  let fill : Option String :=
    (shape.find "FillColor").map (fun fc => decimal_to_hex (fc.findtext "Color"))
  let stroke_thickness : Option String :=
    (shape.find "Style").bind (fun style => style.findtext "StrokeThickness")
  let sf : Option String × Option String :=
    match shape.find "ShapeStyle" with
    | none => (stroke, fill)
    | some ss =>
      (if pyTruthy stroke then stroke else some (decimal_to_hex (ss.findtext "LineColor")),
       if pyTruthy fill then fill else some (decimal_to_hex (ss.findtext "FillColor")))
  (pyOr sf.1 "#808080", pyOr stroke_thickness "1", pyOr sf.2 "#808080")

/-! ### The parse-and-emit pass (utilities.parse_xml) -/

/-- Values stored in the `shape_dict` records (Python mixes str and int). -/
inductive Val : Type where
  | str : String → Val
  | int : Int → Val
deriving Repr, DecidableEq

/-- The mutable state of one `parse_xml` call: the local counter, extent,
and element list, plus the module-level dictionaries (which `parse_xml`
clears per ViewObject), and the loop-local canvas size variables (written
at the end of each ViewObject iteration, dead afterwards). -/
structure ParseState : Type where
  counter : Nat
  min_x : Option Int
  max_x : Option Int
  min_y : Option Int
  max_y : Option Int
  canvas_elements : List String
  parent_dict : List (String × String)
  shape_dict : List (String × List (String × Val))
  crule_dict : List (String × String)
  canvas_size : Option (Int × Int)
deriving Repr, DecidableEq

/-- Assignment `d[k] = v` on the shape dictionary. -/
def insertShape (d : List (String × List (String × Val))) (k : String)
    (v : List (String × Val)) : List (String × List (String × Val)) :=
  match d with
  | [] => [(k, v)]
  | (k', v') :: rest => if k' = k then (k, v) :: rest else (k', v') :: insertShape rest k v

/-- The update `min_x = left if min_x is None else min(min_x, left)`. -/
def updMin (o : Option Int) (v : Int) : Option Int :=
  match o with
  | none => some v
  | some m => some (min m v)

/-- The update `max_x = right if max_x is None else max(max_x, right)`. -/
def updMax (o : Option Int) (v : Int) : Option Int :=
  match o with
  | none => some v
  | some m => some (max m v)

/-- The Rectangle XAML template string (utilities.py lines 299-315). -/
def rectElemString (sysname symbol_key : String) (counter : Nat)
    (width height left top : Int)
    (stroke stroke_thickness fill visibility : String) : String :=
  "<Rectangle Name=\"" ++ sysname ++ "-rect-" ++ symbol_key ++ "-" ++ toString counter ++
  "\" Width=\"" ++ toString width ++ "\" Height=\"" ++ toString height ++
  "\" Canvas.Left=\"" ++ toString left ++ "\" Canvas.Top=\"" ++ toString top ++
  "\" Stroke=\"" ++ stroke ++ "\" StrokeThickness=\"" ++ stroke_thickness ++
  "\" Fill=\"" ++ fill ++ "\" Tag=\"1\" Visibility=\"" ++ visibility ++
  "\" Canvas.ZIndex=\"2\"/>"

/-- The TextBlock XAML template string (utilities.py lines 346-359). -/
def textElemString (sysname symbol_key : String) (counter : Nat)
    (left top right bottom : Int) (visibility : String) : String :=
  "<TextBlock Name=\"" ++ sysname ++ "-txt-" ++ symbol_key ++ "-" ++ toString counter ++
  "\" Text=\"control\" Canvas.Left=\"" ++ toString left ++ "\" Canvas.Top=\"" ++ toString top ++
  "\" Canvas.Right=\"" ++ toString right ++ "\" Canvas.Bottom=\"" ++ toString bottom ++
  "\" Foreground=\"#808080\" FontSize=\"10\" FontWeight=\"Normal\" Tag=\"1\" Visibility=\"" ++
  visibility ++ "\"/>"

/-- The Polygon XAML template string (utilities.py lines 390-403). -/
def polyElemString (sysname symbol_key : String) (counter : Nat)
    (points stroke stroke_thickness fill visibility : String) : String :=
  "<Polygon Name=\"" ++ sysname ++ "-poly-" ++ symbol_key ++ "-" ++ toString counter ++
  "\" Points=\"" ++ points ++ "\" Stroke=\"" ++ stroke ++ "\" StrokeThickness=\"" ++
  stroke_thickness ++ "\" Fill=\"" ++ fill ++ "\" Tag=\"17\" Visibility=\"" ++ visibility ++
  "\" Canvas.ZIndex=\"2\"/>"

/-- The polygon point loop (utilities.py lines 367-376): per point, parse
X and Y (`none` models the int() exception), append `"x,y"`, and widen
the extent. -/
def foldPoints : List XmlElem → List String → ParseState → Option (List String × ParseState)
  | [], pts, st => some (pts, st)
  | pt :: rest, pts, st =>
    match (pt.findtext "X").bind pyIntParse, (pt.findtext "Y").bind pyIntParse with
    | some x, some y =>
      foldPoints rest (pts ++ [toString x ++ "," ++ toString y])
        { st with
            min_x := updMin st.min_x x, max_x := updMax st.max_x x,
            min_y := updMin st.min_y y, max_y := updMax st.max_y y }
    | _, _ => none

/-- The CRectangle branch (utilities.py lines 263-315): a missing
`RectShape` or an unparseable geometry field is `none` (an exception). -/
def rectBranch (sysname symbol_key shape_key visibility stroke stroke_thickness fill : String)
    (shape : XmlElem) (st : ParseState) : Option ParseState :=
  match shape.find "RectShape" with
  | none => none
  | some rect =>
    match (rect.findtext "Left").bind pyIntParse, (rect.findtext "Right").bind pyIntParse,
          (rect.findtext "Top").bind pyIntParse, (rect.findtext "Bottom").bind pyIntParse with
    | some left, some right, some top, some bottom =>
      let counter := st.counter + 1
      let width := right - left
      let height := bottom - top
      some { st with
        counter := counter,
        min_x := updMin st.min_x left, max_x := updMax st.max_x right,
        min_y := updMin st.min_y top, max_y := updMax st.max_y bottom,
        shape_dict := insertShape st.shape_dict shape_key
          [("ClassName", .str (sysname ++ "-rect-" ++ symbol_key)),
           ("Visibility", .str visibility), ("Tag", .str "1"),
           ("Left", .int left), ("Top", .int top),
           ("Width", .int width), ("Height", .int height),
           ("Stroke", .str stroke), ("StrokeThickness", .str stroke_thickness),
           ("Fill", .str fill)],
        canvas_elements := st.canvas_elements ++
          [rectElemString sysname symbol_key counter width height left top
            stroke stroke_thickness fill visibility] }
    | _, _, _, _ => none

/-- The CTextBox branch (utilities.py lines 318-359): the rectangle fields
sit one level deeper, under `Rectangle/RectShape`. -/
def textBranch (sysname symbol_key shape_key visibility : String)
    (shape : XmlElem) (st : ParseState) : Option ParseState :=
  match shape.findPath2 "Rectangle" "RectShape" with
  | none => none
  | some rect =>
    match (rect.findtext "Left").bind pyIntParse, (rect.findtext "Right").bind pyIntParse,
          (rect.findtext "Top").bind pyIntParse, (rect.findtext "Bottom").bind pyIntParse with
    | some left, some right, some top, some bottom =>
      let counter := st.counter + 1
      some { st with
        counter := counter,
        min_x := updMin st.min_x left, max_x := updMax st.max_x right,
        min_y := updMin st.min_y top, max_y := updMax st.max_y bottom,
        shape_dict := insertShape st.shape_dict shape_key
          [("ClassName", .str (sysname ++ "-txt-" ++ symbol_key)),
           ("Visibility", .str visibility), ("Tag", .str "1"),
           ("Left", .int left), ("Top", .int top),
           ("Right", .int right), ("Bottom", .int bottom),
           ("Text", .str "control")],
        canvas_elements := st.canvas_elements ++
          [textElemString sysname symbol_key counter left top right bottom visibility] }
    | _, _, _, _ => none

/-- The CPolygon/CParallelogram branch (utilities.py lines 362-403). -/
def polyBranch (sysname symbol_key shape_key visibility stroke stroke_thickness fill : String)
    (shape : XmlElem) (st : ParseState) : Option ParseState :=
  let counter := st.counter + 1
  match foldPoints (shape.findallPath2 "PolyShape" "Point") [] st with
  | none => none
  | some (pts, st') =>
    some { st' with
      counter := counter,
      shape_dict := insertShape st'.shape_dict shape_key
        [("ClassName", .str (sysname ++ "-poly-" ++ symbol_key)),
         ("Visibility", .str visibility), ("Tag", .str "17"),
         ("Points", .str (String.intercalate " " pts)),
         ("Stroke", .str stroke), ("StrokeThickness", .str stroke_thickness),
         ("Fill", .str fill)],
      canvas_elements := st'.canvas_elements ++
        [polyElemString sysname symbol_key counter (String.intercalate " " pts)
          stroke stroke_thickness fill visibility] }

/-- The body of the ShapeObject loop (utilities.py lines 237-403) for one
ShapeObject. `none` models an exception escaping the loop body: a missing
`MetaData/ClassName` element (attribute error on `.text`), a missing
`RectShape` payload, or an `int()` failure on a geometry field. -/
def stepShapeObject (sysname symbol_key : String) (idx : Nat) (shapeobject : XmlElem)
    (st : ParseState) : Option ParseState :=
  match shapeobject.findDesc "SHAPE" with
  | none => some st
  | some shape =>
    match shape.findPath2 "MetaData" "ClassName" with
    | none => none
    | some cnElem =>
      let classname : Option String := cnElem.text
      let rule_present := has_crule shapeobject
      let visibility := if rule_present then "Collapsed" else "Visible"
      let shape_key := "shape_" ++ toString idx
      let v := extract_visuals shape
      let st1 :=
        if rule_present then
          match shapeobject.find "RULE" with
          | some crule_elem =>
            { st with crule_dict := updateKV st.crule_dict (extract_rule_details crule_elem) }
          | none => st
        else st
      if classname = some "CRectangle" then
        rectBranch sysname symbol_key shape_key visibility v.1 v.2.1 v.2.2 shape st1
      else if classname = some "CTextBox" then
        textBranch sysname symbol_key shape_key visibility shape st1
      else if classname = some "CPolygon" ∨ classname = some "CParallelogram" then
        polyBranch sysname symbol_key shape_key visibility v.1 v.2.1 v.2.2 shape st1
      else
        some st1

/-- The ShapeObject loop: `enumerate(shape_array.findall('.//ShapeObject'))`. -/
def foldShapeObjects (sysname symbol_key : String) : Nat → List XmlElem → ParseState →
    Option ParseState
  | _, [], st => some st
  | idx, so :: rest, st =>
    match stepShapeObject sysname symbol_key idx so st with
    | none => none
    | some st' => foldShapeObjects sysname symbol_key (idx + 1) rest st'

/-- The canvas-size computation (utilities.py lines 406-412). -/
def computeCanvasSize (st : ParseState) : Int × Int :=
  match st.min_x, st.max_x, st.min_y, st.max_y with
  | some a, some b, some c, some d => (b - a, d - c)
  | _, _, _, _ => (800, 600)

/-- The body of the ViewObject loop (utilities.py lines 220-412): clear the
module dictionaries, refill `parent_dict`, derive `symbol_key`/`sysname`,
`continue` if there is no SHAPEARRAY (skipping the canvas-size lines too),
else run the ShapeObject loop and recompute the (unused) canvas size. -/
def processViewObject (viewobject : XmlElem) (st : ParseState) : Option ParseState :=
  let st1 := { st with
    parent_dict := extract_children_text viewobject,
    shape_dict := [], crule_dict := [] }
  let symbol_key := lookupD st1.parent_dict "SymbolKey" "0"
  let sysname := lookupD st1.parent_dict "SysName" "default"
  match viewobject.find "SHAPEARRAY" with
  | none => some st1
  | some shape_array =>
    match foldShapeObjects sysname symbol_key 0
        (shape_array.findallDesc "ShapeObject") st1 with
    | none => none
    | some st2 => some { st2 with canvas_size := some (computeCanvasSize st2) }

def foldViewObjects : List XmlElem → ParseState → Option ParseState
  | [], st => some st
  | vo :: rest, st =>
    match processViewObject vo st with
    | none => none
    | some st' => foldViewObjects rest st'

/-- All ViewObjects visited by `root.findall('.//ViewObject')`. -/
def viewObjectsOf (root : XmlElem) : List XmlElem :=
  root.findallDesc "ViewObject"

/-- The ShapeObjects visited for one ViewObject: none when it has no
SHAPEARRAY child, else all ShapeObject descendants of the SHAPEARRAY. -/
def shapeObjectsOf (vo : XmlElem) : List XmlElem :=
  match vo.find "SHAPEARRAY" with
  | none => []
  | some sa => sa.findallDesc "ShapeObject"

/-- utilities.parse_xml, whole-state view: run the ViewObject loop from
counter 0, empty extent and element list, and the current contents of the
module-level dictionaries (`parent0`/`shape0`/`crule0`). `none` models an
exception aborting the call. -/
def parse_xml_run (parent0 : List (String × String))
    (shape0 : List (String × List (String × Val)))
    (crule0 : List (String × String)) (root : XmlElem) : Option ParseState :=
  foldViewObjects (viewObjectsOf root)
    { counter := 0, min_x := none, max_x := none, min_y := none, max_y := none,
      canvas_elements := [], parent_dict := parent0, shape_dict := shape0,
      crule_dict := crule0, canvas_size := none }

/-- utilities.parse_xml, return value: line 415 returns `canvas_elements`
only (the canvas size computed inside the loop is discarded, although the
docstring promises a (elements, width, height) tuple). -/
def parse_xml (parent0 : List (String × String))
    (shape0 : List (String × List (String × Val)))
    (crule0 : List (String × String)) (root : XmlElem) : Option (List String) :=
  (parse_xml_run parent0 shape0 crule0 root).map (fun st => st.canvas_elements)

/-! ### The structural validator (utilities.validate_conversion) -/

/-- Python `str.lower()` (ASCII model). -/
def lowerStr (s : String) : String :=
  String.mk (s.toList.map Char.toLower)

/-- The set of tags gathered from the XAML tree (`xaml_root.iter()`);
modelled as a list, membership standing for set membership. -/
def xamlTags (xaml_root : XmlElem) : List String :=
  xaml_root.iterAll.map (fun e => e.tag)

/-- The set of stringified attribute values gathered from the XAML tree. -/
def xamlValues (xaml_root : XmlElem) : List String :=
  xaml_root.iterAll.flatMap (fun e => e.attrib.map (fun p => p.2))

/-- The mismatches recorded for one source element (utilities.py lines
462-475): elements tagged (case-insensitively) `root` are skipped wholly;
otherwise a missing-tag entry, then one missing-value entry per attribute
whose stringified value is absent from the XAML value set. -/
def elemMismatches (tags vals : List String) (e : XmlElem) : List String :=
  if lowerStr e.tag = "root" then []
  else
    (if e.tag ∈ tags then [] else ["Missing tag: " ++ e.tag]) ++
    e.attrib.filterMap (fun p =>
      if p.2 ∈ vals then none
      else some (e.tag ++ " - Missing value: " ++ p.1 ++ "=" ++ p.2))

/-- utilities.validate_conversion, on two already-parsed trees: the ordered
mismatch list accumulated over `root.iter()`. -/
def validate_conversion (root xaml_root : XmlElem) : List String :=
  root.iterAll.flatMap (elemMismatches (xamlTags xaml_root) (xamlValues xaml_root))

/-! ### Properties of the accumulated extent -/

/-- The running minimum is set and lies at or below `v`. -/
def holdsLe (o : Option Int) (v : Int) : Prop :=
  ∃ m, o = some m ∧ m ≤ v

/-- The running maximum is set and lies at or above `v`. -/
def holdsGe (o : Option Int) (v : Int) : Prop :=
  ∃ m, o = some m ∧ v ≤ m

/-- The running minimum can only go down (or become set). -/
def extLe (o o' : Option Int) : Prop :=
  ∀ m, o = some m → ∃ n, o' = some n ∧ n ≤ m

/-- The running maximum can only go up (or become set). -/
def extGe (o o' : Option Int) : Prop :=
  ∀ m, o = some m → ∃ n, o' = some n ∧ m ≤ n

/-- Processing can only widen the extent and append canvas elements. -/
structure Widens (st st' : ParseState) : Prop where
  minx : extLe st.min_x st'.min_x
  maxx : extGe st.max_x st'.max_x
  miny : extLe st.min_y st'.min_y
  maxy : extGe st.max_y st'.max_y
  elems : ∃ l, st'.canvas_elements = st.canvas_elements ++ l

/-! ### Concrete documents used to exercise the model -/

/-- An element with neither attributes nor text. -/
def el (tag : String) (children : List XmlElem) : XmlElem :=
  .mk tag [] none children

/-- A leaf element carrying only text. -/
def txt (tag t : String) : XmlElem :=
  .mk tag [] (some t) []

/-- The spec's end-to-end rectangle: SymbolKey 42, SysName Foo, one
CRectangle with Left=0, Top=0, Right=10, Bottom=20, no RULE, no visuals. -/
def c1shape : XmlElem :=
  el "SHAPE"
    [el "MetaData" [txt "ClassName" "CRectangle"],
     el "RectShape" [txt "Left" "0", txt "Top" "0", txt "Right" "10", txt "Bottom" "20"]]

def c1vo : XmlElem :=
  el "ViewObject"
    [txt "SymbolKey" "42", txt "SysName" "Foo",
     el "SHAPEARRAY" [el "ShapeObject" [c1shape]]]

def c1doc : XmlElem :=
  el "root" [c1vo]

/-- A ShapeObject whose SHAPE has no `MetaData/ClassName` element. -/
def c2doc : XmlElem :=
  el "root"
    [el "ViewObject"
      [el "SHAPEARRAY" [el "ShapeObject" [el "SHAPE" [el "RectShape" []]]]]]

/-- A rectangle document for exercising the extent bounds: Left=3, Top=-2,
Right=7, Bottom=5. -/
def c4shape : XmlElem :=
  el "SHAPE"
    [el "MetaData" [txt "ClassName" "CRectangle"],
     el "RectShape" [txt "Left" "3", txt "Top" "-2", txt "Right" "7", txt "Bottom" "5"]]

def c4so : XmlElem :=
  el "ShapeObject" [c4shape]

def c4vo : XmlElem :=
  el "ViewObject" [txt "SymbolKey" "7", txt "SysName" "Sys", el "SHAPEARRAY" [c4so]]

def c4doc : XmlElem :=
  el "root" [c4vo]

/-- A ShapeObject owning a RULE child, around a CRectangle. -/
def c5so : XmlElem :=
  el "ShapeObject"
    [el "RULE" [txt "COND" "x > 1"],
     el "SHAPE"
       [el "MetaData" [txt "ClassName" "CRectangle"],
        el "RectShape" [txt "Left" "1", txt "Top" "1", txt "Right" "2", txt "Bottom" "2"]]]

/-- A shape with both `Pen/Color` and `ShapeStyle/LineColor` present. -/
def c6shape : XmlElem :=
  el "SHAPE"
    [el "Pen" [txt "Color" "255"],
     el "ShapeStyle" [txt "LineColor" "0"]]

/-- A shape whose Pen and FillColor exist but carry no parseable `Color`,
while the ShapeStyle holds valid colors. -/
def c9shape : XmlElem :=
  el "SHAPE"
    [el "Pen" [],
     el "FillColor" [txt "Color" "bogus"],
     el "ShapeStyle" [txt "LineColor" "255", txt "FillColor" "255"]]

/-- A CPolygon whose PolyShape has zero Point children. -/
def c10shape : XmlElem :=
  el "SHAPE"
    [el "MetaData" [txt "ClassName" "CPolygon"],
     el "PolyShape" []]

def c10so : XmlElem :=
  el "ShapeObject" [c10shape]

/-- An empty initial state, as at the start of the first `parse_xml` call. -/
def st0 : ParseState :=
  { counter := 0, min_x := none, max_x := none, min_y := none, max_y := none,
    canvas_elements := [], parent_dict := [], shape_dict := [], crule_dict := [],
    canvas_size := none }

/-- Validator witness pair: the output holds every source tag and value. -/
def c7srcA : XmlElem :=
  .mk "Root" [] none [.mk "Rectangle" [("Width", "10")] none []]

def c7outA : XmlElem :=
  .mk "Canvas" [] none [.mk "Rectangle" [("Width", "10")] none []]

/-- Validator witness pair: the source value `10` is absent from the output. -/
def c7srcB : XmlElem :=
  .mk "Root" [] none [.mk "Rectangle" [("Width", "10")] none []]

def c7rectB : XmlElem :=
  .mk "Rectangle" [("Width", "10")] none []

def c7outB : XmlElem :=
  .mk "Canvas" [] none [.mk "Rectangle" [("Width", "11")] none []]


/-! ## Helper lemmas about the color normalizer -/

theorem rstripWs_head {c : Char} (cs : List Char) (h : c.isWhitespace = false) :
    ∃ r, rstripWs (c :: cs) = c :: r := by
  cases hr : rstripWs cs with
  | nil => exact ⟨[], by simp [rstripWs, hr, h]⟩
  | cons a r => exact ⟨a :: r, by simp [rstripWs, hr]⟩

theorem pyIntParse_hash (cs : List Char) : pyIntParse (String.mk ('#' :: cs)) = none := by
  have hw : ('#').isWhitespace = false := by decide
  obtain ⟨r, hr⟩ := rstripWs_head (c := '#') cs hw
  unfold pyIntParse stripWs
  have h1 : (String.mk ('#' :: cs)).toList = '#' :: cs := rfl
  rw [h1, List.dropWhile_cons]
  simp only [hw, Bool.false_eq_true, if_false, hr]
  rfl

theorem decimal_to_hex_hash (v : Option String) :
    ∃ cs, decimal_to_hex v = String.mk ('#' :: cs) := by
  unfold decimal_to_hex
  cases v with
  | none => exact ⟨['8', '0', '8', '0', '8', '0'], rfl⟩
  | some s =>
    by_cases h : s = ""
    · exact ⟨['8', '0', '8', '0', '8', '0'], by simp [h]⟩
    · cases hp : pyIntParse s with
      | none => exact ⟨['8', '0', '8', '0', '8', '0'], by simp [h, hp]⟩
      | some n => exact ⟨(fmt06X n).toList, by simp [h, hp]; rfl⟩

theorem decimal_to_hex_ne_empty (v : Option String) : decimal_to_hex v ≠ "" := by
  obtain ⟨cs, h⟩ := decimal_to_hex_hash v
  rw [h]
  intro hc
  exact List.cons_ne_nil '#' cs (congrArg String.data hc)

theorem dth_fallback (v : Option String)
    (h : ∀ s, v = some s → s = "" ∨ pyIntParse s = none) :
    decimal_to_hex v = "#808080" := by
  cases v with
  | none => rfl
  | some s =>
    rcases h s rfl with h1 | h1
    · rw [h1]; rfl
    · unfold decimal_to_hex
      by_cases he : s = ""
      · simp [he]
      · simp [he, h1]

theorem dth_fix (v : Option String) :
    decimal_to_hex (some (decimal_to_hex v)) = "#808080" := by
  obtain ⟨cs, h⟩ := decimal_to_hex_hash v
  rw [h]
  apply dth_fallback
  intro s hs
  cases hs
  exact Or.inr (pyIntParse_hash cs)

/-! ## Claim theorems -/

/-- C1 (code-bug evidence): on the spec's end-to-end document, `parse_xml`
returns only the ordered markup element list; the synthesized canvas size
(10, 20) is computed in the pass state but is not part of the return value,
although the claim (and the function's own docstring) promise a
(elements, width, height) tuple. -/
theorem c1_parse_xml_drops_canvas_size :
    parse_xml [] [] [] c1doc =
      some [rectElemString "Foo" "42" 1 10 20 0 0 "#808080" "1" "#808080" "Visible"] ∧
    (parse_xml_run [] [] [] c1doc).map (fun st => st.canvas_size) = some (some (10, 20)) :=
  ⟨rfl, rfl⟩

/-- C2 (code-bug evidence): a ShapeObject whose SHAPE has no
`MetaData/ClassName` element makes `parse_xml` raise (the source calls
`.text` on the `None` returned by `find`), modelled as `none`: the claim's
promised clean skip does not happen. -/
theorem c2_missing_classname_crashes : parse_xml [] [] [] c2doc = none := rfl

/-- C3 counterexample: a negative decimal color is NOT mapped to the gray
fallback; `"{:06X}"` formats it with its sign, so `-5` yields `#-00005`. -/
theorem c3_negative_not_fallback :
    decimal_to_hex (some "-5") = "#-00005" ∧ decimal_to_hex (some "-5") ≠ "#808080" :=
  ⟨rfl, by decide⟩

/-- C3 (amended): if the input is absent, empty, or fails to parse as an
integer, `decimal_to_hex` returns exactly `#808080`; no exception escapes
(the model is a total function into `String`). The negative-input clause of
the original claim is dropped: negative values are sign-formatted. -/
theorem c3_fallback_empty_or_unparseable (v : Option String)
    (h : ∀ s, v = some s → s = "" ∨ pyIntParse s = none) :
    decimal_to_hex v = "#808080" :=
  dth_fallback v h

theorem c3_witness : decimal_to_hex (some "12ab") = "#808080" :=
  c3_fallback_empty_or_unparseable (some "12ab")
    (fun _ hs => by cases hs; exact Or.inr rfl)

/-- C8 counterexample: `toHex` is not idempotent on re-application to its
own output: `toHex("255") = #0000FF`, but `toHex(#0000FF) = #808080`. -/
theorem c8_not_idempotent :
    decimal_to_hex (some (decimal_to_hex (some "255"))) ≠ decimal_to_hex (some "255") := by
  decide

/-- C8 (amended): re-applying `toHex` to its own output always yields the
gray fallback `#808080` (every output starts with `#`, which never parses
as a decimal), so `toHex ∘ toHex` is the constant `#808080` rather than
`toHex`; and `toHex(None) = toHex("") = "#808080"` as claimed. -/
theorem c8_reapplication_constant_gray :
    (∀ v : Option String, decimal_to_hex (some (decimal_to_hex v)) = "#808080") ∧
    decimal_to_hex none = "#808080" ∧ decimal_to_hex (some "") = "#808080" :=
  ⟨fun v => dth_fix v, rfl, rfl⟩

/-- C6: when a shape has both a `Pen` with a `Color` field and a
`ShapeStyle` with a `LineColor` field, the resolved stroke is the hex
normalization of the `Pen/Color` value; the `ShapeStyle` fallback is never
consulted, because the Pen branch always yields a non-empty string. -/
theorem c6_pen_color_precedence (shape pen ss : XmlElem) (c lc : String)
    (hpen : shape.find "Pen" = some pen)
    (hc : pen.findtext "Color" = some c)
    (hss : shape.find "ShapeStyle" = some ss)
    (hlc : ss.findtext "LineColor" = some lc) :
    (extract_visuals shape).1 = decimal_to_hex (some c) := by
  have hne := decimal_to_hex_ne_empty (some c)
  unfold extract_visuals
  rw [hpen, hss]
  simp only [Option.map_some']
  rw [hc]
  simp [pyTruthy, pyOr, hne]

theorem c6_witness : (extract_visuals c6shape).1 = decimal_to_hex (some "255") :=
  c6_pen_color_precedence c6shape (el "Pen" [txt "Color" "255"])
    (el "ShapeStyle" [txt "LineColor" "0"]) "255" "0" rfl rfl rfl rfl

/-- C9: the ShapeStyle stroke fallback is gated on the `Pen` element's
presence, not on a valid color: whenever a `Pen` exists but its `Color`
text is absent, empty or unparseable, the stroke is the gray set by the Pen
branch and `ShapeStyle/LineColor` is never consulted, whatever it holds;
symmetrically for `FillColor/Color` versus `ShapeStyle/FillColor`. -/
theorem c9_fallback_gated_on_presence (shape : XmlElem) :
    (∀ pen, shape.find "Pen" = some pen →
      (∀ s, pen.findtext "Color" = some s → s = "" ∨ pyIntParse s = none) →
      (extract_visuals shape).1 = "#808080") ∧
    (∀ fc, shape.find "FillColor" = some fc →
      (∀ s, fc.findtext "Color" = some s → s = "" ∨ pyIntParse s = none) →
      (extract_visuals shape).2.2 = "#808080") := by
  constructor
  · intro pen hpen h
    have hd : decimal_to_hex (pen.findtext "Color") = "#808080" := dth_fallback _ h
    unfold extract_visuals
    rw [hpen]
    cases hss : shape.find "ShapeStyle" <;> simp [hd, pyTruthy, pyOr]
  · intro fc hfc h
    have hd : decimal_to_hex (fc.findtext "Color") = "#808080" := dth_fallback _ h
    unfold extract_visuals
    rw [hfc]
    cases hss : shape.find "ShapeStyle" <;> simp [hd, pyTruthy, pyOr]

theorem c9_witness :
    (extract_visuals c9shape).1 = "#808080" ∧ (extract_visuals c9shape).2.2 = "#808080" :=
  ⟨(c9_fallback_gated_on_presence c9shape).1 (el "Pen" []) rfl
      (fun _ hs => Option.noConfusion hs),
   (c9_fallback_gated_on_presence c9shape).2 (el "FillColor" [txt "Color" "bogus"]) rfl
      (fun _ hs => by cases hs; exact Or.inr rfl)⟩

/-! ## Extent monotonicity machinery -/

theorem extLe_refl (o : Option Int) : extLe o o :=
  fun m h => ⟨m, h, le_refl m⟩

theorem extGe_refl (o : Option Int) : extGe o o :=
  fun m h => ⟨m, h, le_refl m⟩

theorem extLe_trans {a b c : Option Int} (h1 : extLe a b) (h2 : extLe b c) : extLe a c := by
  intro m hm
  obtain ⟨n, hn, hle1⟩ := h1 m hm
  obtain ⟨p, hp, hle2⟩ := h2 n hn
  exact ⟨p, hp, le_trans hle2 hle1⟩

theorem extGe_trans {a b c : Option Int} (h1 : extGe a b) (h2 : extGe b c) : extGe a c := by
  intro m hm
  obtain ⟨n, hn, hle1⟩ := h1 m hm
  obtain ⟨p, hp, hle2⟩ := h2 n hn
  exact ⟨p, hp, le_trans hle1 hle2⟩

theorem extLe_updMin (o : Option Int) (v : Int) : extLe o (updMin o v) := by
  intro m hm
  subst hm
  exact ⟨min m v, rfl, min_le_left m v⟩

theorem extGe_updMax (o : Option Int) (v : Int) : extGe o (updMax o v) := by
  intro m hm
  subst hm
  exact ⟨max m v, rfl, le_max_left m v⟩

theorem holdsLe_updMin (o : Option Int) (v : Int) : holdsLe (updMin o v) v := by
  cases o with
  | none => exact ⟨v, rfl, le_refl v⟩
  | some m => exact ⟨min m v, rfl, min_le_right m v⟩

theorem holdsGe_updMax (o : Option Int) (v : Int) : holdsGe (updMax o v) v := by
  cases o with
  | none => exact ⟨v, rfl, le_refl v⟩
  | some m => exact ⟨max m v, rfl, le_max_right m v⟩

theorem holdsLe_mono {o o' : Option Int} {v : Int} (h : holdsLe o v) (he : extLe o o') :
    holdsLe o' v := by
  obtain ⟨m, hm, hle⟩ := h
  obtain ⟨n, hn, hle2⟩ := he m hm
  exact ⟨n, hn, le_trans hle2 hle⟩

theorem holdsGe_mono {o o' : Option Int} {v : Int} (h : holdsGe o v) (he : extGe o o') :
    holdsGe o' v := by
  obtain ⟨m, hm, hle⟩ := h
  obtain ⟨n, hn, hle2⟩ := he m hm
  exact ⟨n, hn, le_trans hle hle2⟩

theorem widens_refl (st : ParseState) : Widens st st :=
  ⟨extLe_refl _, extGe_refl _, extLe_refl _, extGe_refl _, [], (List.append_nil _).symm⟩

theorem widens_trans {a b c : ParseState} (h1 : Widens a b) (h2 : Widens b c) : Widens a c := by
  obtain ⟨l1, he1⟩ := h1.elems
  obtain ⟨l2, he2⟩ := h2.elems
  exact ⟨extLe_trans h1.minx h2.minx, extGe_trans h1.maxx h2.maxx,
    extLe_trans h1.miny h2.miny, extGe_trans h1.maxy h2.maxy,
    l1 ++ l2, by rw [he2, he1, List.append_assoc]⟩

theorem foldPoints_spec : ∀ (pts : List XmlElem) (acc : List String) (st : ParseState)
    (res : List String × ParseState), foldPoints pts acc st = some res →
    Widens st res.2 ∧ res.2.canvas_elements = st.canvas_elements ∧
    res.2.counter = st.counter ∧ res.2.shape_dict = st.shape_dict ∧
    res.2.crule_dict = st.crule_dict := by
  intro pts
  induction pts with
  | nil =>
    intro acc st res h
    cases h
    exact ⟨widens_refl st, rfl, rfl, rfl, rfl⟩
  | cons pt rest ih =>
    intro acc st res h
    unfold foldPoints at h
    cases hx : (pt.findtext "X").bind pyIntParse with
    | none => rw [hx] at h; cases hy : (pt.findtext "Y").bind pyIntParse <;> rw [hy] at h <;> cases h
    | some x =>
      rw [hx] at h
      cases hy : (pt.findtext "Y").bind pyIntParse with
      | none => rw [hy] at h; cases h
      | some y =>
        rw [hy] at h
        obtain ⟨hw, hce, hco, hsd, hcd⟩ := ih _ _ _ h
        refine ⟨widens_trans ?_ hw, hce, hco, hsd, hcd⟩
        exact ⟨extLe_updMin _ _, extGe_updMax _ _, extLe_updMin _ _, extGe_updMax _ _,
          [], (List.append_nil _).symm⟩

/-! ## Branch lemmas for the ShapeObject loop body -/

theorem has_crule_none {so : XmlElem} (h : so.find "RULE" = none) : has_crule so = false := by
  simp [has_crule, h]

theorem has_crule_some {so r : XmlElem} (h : so.find "RULE" = some r) : has_crule so = true := by
  simp [has_crule, h]

theorem rectBranch_eval_of {sn sk key vis s tk f : String} {shape rect : XmlElem}
    {st st' : ParseState} {left right top bottom : Int}
    (hrect : shape.find "RectShape" = some rect)
    (hl : (rect.findtext "Left").bind pyIntParse = some left)
    (hr : (rect.findtext "Right").bind pyIntParse = some right)
    (ht : (rect.findtext "Top").bind pyIntParse = some top)
    (hb : (rect.findtext "Bottom").bind pyIntParse = some bottom)
    (h : rectBranch sn sk key vis s tk f shape st = some st') :
    st'.canvas_elements = st.canvas_elements ++
      [rectElemString sn sk (st.counter + 1) (right - left) (bottom - top) left top
        s tk f vis] ∧
    holdsLe st'.min_x left ∧ holdsGe st'.max_x right ∧
    holdsLe st'.min_y top ∧ holdsGe st'.max_y bottom := by
  unfold rectBranch at h
  simp only [hrect, hl, hr, ht, hb] at h
  cases h
  exact ⟨rfl, holdsLe_updMin _ _, holdsGe_updMax _ _, holdsLe_updMin _ _, holdsGe_updMax _ _⟩

theorem rectBranch_spec {sn sk key vis s tk f : String} {shape : XmlElem} {st st' : ParseState}
    (h : rectBranch sn sk key vis s tk f shape st = some st') :
    Widens st st' ∧ ∃ c w hh l t, st'.canvas_elements = st.canvas_elements ++
      [rectElemString sn sk c w hh l t s tk f vis] := by
  unfold rectBranch at h
  cases hrect : shape.find "RectShape" with
  | none => rw [hrect] at h; cases h
  | some rect =>
    simp only [hrect] at h
    split at h
    · cases h
      exact ⟨⟨extLe_updMin _ _, extGe_updMax _ _, extLe_updMin _ _, extGe_updMax _ _, _, rfl⟩,
        _, _, _, _, _, rfl⟩
    · cases h

theorem textBranch_spec {sn sk key vis : String} {shape : XmlElem} {st st' : ParseState}
    (h : textBranch sn sk key vis shape st = some st') :
    Widens st st' ∧ ∃ c l t r b, st'.canvas_elements = st.canvas_elements ++
      [textElemString sn sk c l t r b vis] := by
  unfold textBranch at h
  cases hrect : shape.findPath2 "Rectangle" "RectShape" with
  | none => rw [hrect] at h; cases h
  | some rect =>
    simp only [hrect] at h
    split at h
    · cases h
      exact ⟨⟨extLe_updMin _ _, extGe_updMax _ _, extLe_updMin _ _, extGe_updMax _ _, _, rfl⟩,
        _, _, _, _, _, rfl⟩
    · cases h

theorem polyBranch_spec {sn sk key vis s tk f : String} {shape : XmlElem} {st st' : ParseState}
    (h : polyBranch sn sk key vis s tk f shape st = some st') :
    Widens st st' ∧ ∃ c pts, st'.canvas_elements = st.canvas_elements ++
      [polyElemString sn sk c pts s tk f vis] := by
  unfold polyBranch at h
  cases hfp : foldPoints (shape.findallPath2 "PolyShape" "Point") [] st with
  | none => rw [hfp] at h; cases h
  | some res =>
    obtain ⟨pts, st2⟩ := res
    simp only [hfp] at h
    cases h
    obtain ⟨hw, hce, _, _, _⟩ := foldPoints_spec _ _ _ _ hfp
    constructor
    · exact widens_trans hw
        ⟨extLe_refl _, extGe_refl _, extLe_refl _, extGe_refl _, _, rfl⟩
    · exact ⟨_, _, by rw [hce]⟩

theorem stepShapeObject_spec {sn sk : String} {idx : Nat} {so : XmlElem} {st st' : ParseState}
    (h : stepShapeObject sn sk idx so st = some st') :
    Widens st st' ∧
    (st'.canvas_elements = st.canvas_elements ∨
      ∃ e, st'.canvas_elements = st.canvas_elements ++ [e] ∧
        ((∃ c w hh l t s tk f, e = rectElemString sn sk c w hh l t s tk f
            (if has_crule so then "Collapsed" else "Visible")) ∨
         (∃ c l t r b, e = textElemString sn sk c l t r b
            (if has_crule so then "Collapsed" else "Visible")) ∨
         (∃ c pts s tk f, e = polyElemString sn sk c pts s tk f
            (if has_crule so then "Collapsed" else "Visible")))) := by
  unfold stepShapeObject at h
  cases hS : so.findDesc "SHAPE" with
  | none =>
    rw [hS] at h
    cases h
    exact ⟨widens_refl _, Or.inl rfl⟩
  | some shape =>
    cases hC : shape.findPath2 "MetaData" "ClassName" with
    | none =>
      simp only [hS, hC] at h
      cases h
    | some cnElem =>
      simp only [hS, hC] at h
      cases hR : so.find "RULE" with
      | none =>
        rw [has_crule_none hR]
        simp only [has_crule_none hR, Bool.false_eq_true, if_false] at h
        by_cases h1 : cnElem.text = some "CRectangle"
        · rw [if_pos h1] at h
          obtain ⟨hw, c, w0, hh, l, t, hce⟩ := rectBranch_spec h
          exact ⟨hw, Or.inr ⟨_, hce, Or.inl ⟨_, _, _, _, _, _, _, _, rfl⟩⟩⟩
        · rw [if_neg h1] at h
          by_cases h2 : cnElem.text = some "CTextBox"
          · rw [if_pos h2] at h
            obtain ⟨hw, c, l, t, r, b, hce⟩ := textBranch_spec h
            exact ⟨hw, Or.inr ⟨_, hce, Or.inr (Or.inl ⟨_, _, _, _, _, rfl⟩)⟩⟩
          · rw [if_neg h2] at h
            by_cases h3 : cnElem.text = some "CPolygon" ∨ cnElem.text = some "CParallelogram"
            · rw [if_pos h3] at h
              obtain ⟨hw, c, pts, hce⟩ := polyBranch_spec h
              exact ⟨hw, Or.inr ⟨_, hce, Or.inr (Or.inr ⟨_, _, _, _, _, rfl⟩)⟩⟩
            · rw [if_neg h3] at h
              cases h
              exact ⟨widens_refl _, Or.inl rfl⟩
      | some r =>
        rw [has_crule_some hR]
        simp only [has_crule_some hR, hR, if_true] at h
        by_cases h1 : cnElem.text = some "CRectangle"
        · rw [if_pos h1] at h
          obtain ⟨hw, c, w0, hh, l, t, hce⟩ := rectBranch_spec h
          refine ⟨widens_trans ?_ hw, Or.inr ⟨_, hce, Or.inl ⟨_, _, _, _, _, _, _, _, rfl⟩⟩⟩
          exact ⟨extLe_refl _, extGe_refl _, extLe_refl _, extGe_refl _, [],
            (List.append_nil _).symm⟩
        · rw [if_neg h1] at h
          by_cases h2 : cnElem.text = some "CTextBox"
          · rw [if_pos h2] at h
            obtain ⟨hw, c, l, t, r2, b, hce⟩ := textBranch_spec h
            refine ⟨widens_trans ?_ hw, Or.inr ⟨_, hce, Or.inr (Or.inl ⟨_, _, _, _, _, rfl⟩)⟩⟩
            exact ⟨extLe_refl _, extGe_refl _, extLe_refl _, extGe_refl _, [],
              (List.append_nil _).symm⟩
          · rw [if_neg h2] at h
            by_cases h3 : cnElem.text = some "CPolygon" ∨ cnElem.text = some "CParallelogram"
            · rw [if_pos h3] at h
              obtain ⟨hw, c, pts, hce⟩ := polyBranch_spec h
              refine ⟨widens_trans ?_ hw, Or.inr ⟨_, hce, Or.inr (Or.inr ⟨_, _, _, _, _, rfl⟩)⟩⟩
              exact ⟨extLe_refl _, extGe_refl _, extLe_refl _, extGe_refl _, [],
                (List.append_nil _).symm⟩
            · rw [if_neg h3] at h
              cases h
              exact ⟨⟨extLe_refl _, extGe_refl _, extLe_refl _, extGe_refl _, [],
                (List.append_nil _).symm⟩, Or.inl rfl⟩

theorem stepShapeObject_rect_eval {sn sk : String} {idx : Nat} {so shape cn rect : XmlElem}
    {st st' : ParseState}
    (hshape : so.findDesc "SHAPE" = some shape)
    (hcn : shape.findPath2 "MetaData" "ClassName" = some cn)
    (hcls : cn.text = some "CRectangle")
    (hrect : shape.find "RectShape" = some rect)
    {left right top bottom : Int}
    (hl : (rect.findtext "Left").bind pyIntParse = some left)
    (hr : (rect.findtext "Right").bind pyIntParse = some right)
    (ht : (rect.findtext "Top").bind pyIntParse = some top)
    (hb : (rect.findtext "Bottom").bind pyIntParse = some bottom)
    (h : stepShapeObject sn sk idx so st = some st') :
    (∃ c s tk f vis, st'.canvas_elements = st.canvas_elements ++
        [rectElemString sn sk c (right - left) (bottom - top) left top s tk f vis]) ∧
    holdsLe st'.min_x left ∧ holdsGe st'.max_x right ∧
    holdsLe st'.min_y top ∧ holdsGe st'.max_y bottom := by
  unfold stepShapeObject at h
  simp only [hshape, hcn] at h
  rw [if_pos hcls] at h
  cases hR : so.find "RULE" with
  | none =>
    simp only [has_crule_none hR, hR, Bool.false_eq_true, if_false] at h
    obtain ⟨hce, b1, b2, b3, b4⟩ := rectBranch_eval_of hrect hl hr ht hb h
    exact ⟨⟨_, _, _, _, _, hce⟩, b1, b2, b3, b4⟩
  | some r =>
    simp only [has_crule_some hR, hR, if_true] at h
    obtain ⟨hce, b1, b2, b3, b4⟩ := rectBranch_eval_of hrect hl hr ht hb h
    exact ⟨⟨_, _, _, _, _, hce⟩, b1, b2, b3, b4⟩

/-- C10: a CPolygon or CParallelogram shape whose PolyShape holds zero
Point children still increments the counter and emits a Polygon element
with an empty Points attribute, leaving the document extent unchanged. -/
theorem c10_empty_polygon_emits (sn sk : String) (idx : Nat) {so shape cn : XmlElem}
    (st : ParseState)
    (hshape : so.findDesc "SHAPE" = some shape)
    (hcn : shape.findPath2 "MetaData" "ClassName" = some cn)
    (hcls : cn.text = some "CPolygon" ∨ cn.text = some "CParallelogram")
    (hpts : shape.findallPath2 "PolyShape" "Point" = []) :
    ∃ st', stepShapeObject sn sk idx so st = some st' ∧
      st'.counter = st.counter + 1 ∧
      st'.canvas_elements = st.canvas_elements ++
        [polyElemString sn sk (st.counter + 1) "" (extract_visuals shape).1
          (extract_visuals shape).2.1 (extract_visuals shape).2.2
          (if has_crule so then "Collapsed" else "Visible")] ∧
      st'.min_x = st.min_x ∧ st'.max_x = st.max_x ∧
      st'.min_y = st.min_y ∧ st'.max_y = st.max_y := by
  have hne1 : ¬ cn.text = some "CRectangle" := by
    rcases hcls with h | h <;> rw [h] <;> decide
  have hne2 : ¬ cn.text = some "CTextBox" := by
    rcases hcls with h | h <;> rw [h] <;> decide
  unfold stepShapeObject
  simp only [hshape, hcn]
  rw [if_neg hne1, if_neg hne2, if_pos hcls]
  unfold polyBranch
  rw [hpts]
  cases hR : so.find "RULE" with
  | none =>
    simp only [has_crule_none hR, hR, Bool.false_eq_true, if_false]
    exact ⟨_, rfl, rfl, rfl, rfl, rfl, rfl, rfl⟩
  | some r =>
    simp only [has_crule_some hR, hR, if_true]
    exact ⟨_, rfl, rfl, rfl, rfl, rfl, rfl, rfl⟩

/-! ## Lemmas about the loops of parse_xml -/

theorem foldShapeObjects_widens {sn sk : String} : ∀ (sos : List XmlElem) (idx : Nat)
    (st st' : ParseState), foldShapeObjects sn sk idx sos st = some st' → Widens st st' := by
  intro sos
  induction sos with
  | nil =>
    intro idx st st' h
    cases h
    exact widens_refl _
  | cons so rest ih =>
    intro idx st st' h
    unfold foldShapeObjects at h
    cases hstep : stepShapeObject sn sk idx so st with
    | none => rw [hstep] at h; cases h
    | some st1 =>
      rw [hstep] at h
      exact widens_trans (stepShapeObject_spec hstep).1 (ih _ _ _ h)

theorem foldShapeObjects_split {sn sk : String} : ∀ (xs ys : List XmlElem) (idx : Nat)
    (st st2 : ParseState), foldShapeObjects sn sk idx (xs ++ ys) st = some st2 →
    ∃ st1, foldShapeObjects sn sk idx xs st = some st1 ∧
      foldShapeObjects sn sk (idx + xs.length) ys st1 = some st2 := by
  intro xs
  induction xs with
  | nil =>
    intro ys idx st st2 h
    exact ⟨st, rfl, by simpa using h⟩
  | cons x xs ih =>
    intro ys idx st st2 h
    rw [List.cons_append] at h
    unfold foldShapeObjects at h
    cases hstep : stepShapeObject sn sk idx x st with
    | none => rw [hstep] at h; cases h
    | some st1 =>
      rw [hstep] at h
      obtain ⟨stm, h1, h2⟩ := ih ys (idx + 1) st1 st2 h
      refine ⟨stm, ?_, ?_⟩
      · unfold foldShapeObjects
        rw [hstep]
        exact h1
      · have hlen : idx + (x :: xs).length = idx + 1 + xs.length := by
          simp only [List.length_cons]
          omega
        rw [hlen]
        exact h2

theorem processViewObject_widens {vo : XmlElem} {st st' : ParseState}
    (h : processViewObject vo st = some st') : Widens st st' := by
  unfold processViewObject at h
  cases hsa : vo.find "SHAPEARRAY" with
  | none =>
    simp only [hsa] at h
    cases h
    exact ⟨extLe_refl _, extGe_refl _, extLe_refl _, extGe_refl _, [], (List.append_nil _).symm⟩
  | some sa =>
    simp only [hsa] at h
    split at h
    · cases h
    · rename_i st2 heq
      cases h
      refine widens_trans (widens_trans ?_ (foldShapeObjects_widens _ _ _ _ heq)) ?_
      · exact ⟨extLe_refl _, extGe_refl _, extLe_refl _, extGe_refl _, [],
          (List.append_nil _).symm⟩
      · exact ⟨extLe_refl _, extGe_refl _, extLe_refl _, extGe_refl _, [],
          (List.append_nil _).symm⟩

theorem processViewObject_fold {vo sa : XmlElem} {st st' : ParseState}
    (hsa : vo.find "SHAPEARRAY" = some sa)
    (h : processViewObject vo st = some st') :
    ∃ st2, foldShapeObjects (lookupD (extract_children_text vo) "SysName" "default")
        (lookupD (extract_children_text vo) "SymbolKey" "0") 0 (sa.findallDesc "ShapeObject")
        { st with parent_dict := extract_children_text vo, shape_dict := [], crule_dict := [] }
        = some st2 ∧
      st' = { st2 with canvas_size := some (computeCanvasSize st2) } := by
  unfold processViewObject at h
  simp only [hsa] at h
  split at h
  · cases h
  · rename_i st2 heq
    cases h
    exact ⟨st2, heq, rfl⟩

theorem foldViewObjects_widens : ∀ (vos : List XmlElem) (st st' : ParseState),
    foldViewObjects vos st = some st' → Widens st st' := by
  intro vos
  induction vos with
  | nil =>
    intro st st' h
    cases h
    exact widens_refl _
  | cons vo rest ih =>
    intro st st' h
    unfold foldViewObjects at h
    cases hpv : processViewObject vo st with
    | none => rw [hpv] at h; cases h
    | some st1 =>
      rw [hpv] at h
      exact widens_trans (processViewObject_widens hpv) (ih _ _ h)

theorem foldViewObjects_split : ∀ (xs ys : List XmlElem) (st st2 : ParseState),
    foldViewObjects (xs ++ ys) st = some st2 →
    ∃ st1, foldViewObjects xs st = some st1 ∧ foldViewObjects ys st1 = some st2 := by
  intro xs
  induction xs with
  | nil =>
    intro ys st st2 h
    exact ⟨st, rfl, h⟩
  | cons x xs ih =>
    intro ys st st2 h
    rw [List.cons_append] at h
    unfold foldViewObjects at h
    cases hpv : processViewObject x st with
    | none => rw [hpv] at h; cases h
    | some st1 =>
      rw [hpv] at h
      obtain ⟨stm, h1, h2⟩ := ih ys st1 st2 h
      refine ⟨stm, ?_, h2⟩
      unfold foldViewObjects
      rw [hpv]
      exact h1

theorem shapeObjectsOf_mem {so vo : XmlElem} (h : so ∈ shapeObjectsOf vo) :
    ∃ sa, vo.find "SHAPEARRAY" = some sa ∧
      shapeObjectsOf vo = sa.findallDesc "ShapeObject" := by
  unfold shapeObjectsOf at h
  cases hsa : vo.find "SHAPEARRAY" with
  | none =>
    rw [hsa] at h
    cases h
  | some sa =>
    exact ⟨sa, rfl, by unfold shapeObjectsOf; rw [hsa]⟩

/-! ## Remaining claim theorems -/

/-- C4: for every CRectangle ShapeObject processed by a successful
`parse_xml` pass, the emitted element carries Width = Right−Left,
Height = Bottom−Top (and Canvas.Left/Canvas.Top = Left/Top), and the final
document extent brackets the rectangle: min_x ≤ Left, max_x ≥ Right,
min_y ≤ Top, max_y ≥ Bottom. -/
theorem c4_rectangle_width_height_extent
    (parent0 : List (String × String)) (shape0 : List (String × List (String × Val)))
    (crule0 : List (String × String)) (root : XmlElem) (stF : ParseState)
    (hrun : parse_xml_run parent0 shape0 crule0 root = some stF)
    (vo : XmlElem) (hvo : vo ∈ viewObjectsOf root)
    (so : XmlElem) (hso : so ∈ shapeObjectsOf vo)
    (shape cn rect : XmlElem)
    (hshape : so.findDesc "SHAPE" = some shape)
    (hcn : shape.findPath2 "MetaData" "ClassName" = some cn)
    (hcls : cn.text = some "CRectangle")
    (hrect : shape.find "RectShape" = some rect)
    (left right top bottom : Int)
    (hl : (rect.findtext "Left").bind pyIntParse = some left)
    (hr : (rect.findtext "Right").bind pyIntParse = some right)
    (ht : (rect.findtext "Top").bind pyIntParse = some top)
    (hb : (rect.findtext "Bottom").bind pyIntParse = some bottom) :
    (∃ sysname symbol_key c s tk f vis,
      rectElemString sysname symbol_key c (right - left) (bottom - top) left top s tk f vis
        ∈ stF.canvas_elements) ∧
    holdsLe stF.min_x left ∧ holdsGe stF.max_x right ∧
    holdsLe stF.min_y top ∧ holdsGe stF.max_y bottom := by
  obtain ⟨pre, post, hsplit⟩ := List.append_of_mem hvo
  unfold parse_xml_run at hrun
  rw [hsplit] at hrun
  obtain ⟨s1, hpre, hrest⟩ := foldViewObjects_split pre (vo :: post) _ _ hrun
  unfold foldViewObjects at hrest
  split at hrest
  · cases hrest
  case _ s2 hpv =>
    obtain ⟨sa, hsa, hsos⟩ := shapeObjectsOf_mem hso
    obtain ⟨st2, hfold, hs2⟩ := processViewObject_fold hsa hpv
    rw [hsos] at hso
    obtain ⟨p, q, hpq⟩ := List.append_of_mem hso
    rw [hpq] at hfold
    obtain ⟨s3, hp, hsoq⟩ := foldShapeObjects_split p (so :: q) 0 _ _ hfold
    unfold foldShapeObjects at hsoq
    split at hsoq
    · cases hsoq
    case _ s4 hstep =>
      obtain ⟨⟨c, s, tk, f, vis, hce⟩, b1, b2, b3, b4⟩ :=
        stepShapeObject_rect_eval hshape hcn hcls hrect hl hr ht hb hstep
      have w1 : Widens s4 st2 := foldShapeObjects_widens _ _ _ _ hsoq
      have w2 : Widens st2 stF := by
        subst hs2
        exact widens_trans
          (show Widens st2 { st2 with canvas_size := some (computeCanvasSize st2) } from
            ⟨extLe_refl _, extGe_refl _, extLe_refl _, extGe_refl _, [],
              (List.append_nil _).symm⟩)
          (foldViewObjects_widens post _ _ hrest)
      have w : Widens s4 stF := widens_trans w1 w2
      obtain ⟨l2, hl2⟩ := w.elems
      refine ⟨⟨lookupD (extract_children_text vo) "SysName" "default",
        lookupD (extract_children_text vo) "SymbolKey" "0", c, s, tk, f, vis, ?_⟩,
        holdsLe_mono b1 w.minx, holdsGe_mono b2 w.maxx,
        holdsLe_mono b3 w.miny, holdsGe_mono b4 w.maxy⟩
      rw [hl2, hce]
      exact List.mem_append_left _ (List.mem_append_right _ (List.mem_singleton_self _))

/-- C5: whenever the ShapeObject loop body emits an element, that element
was built with Visibility "Collapsed" iff the owning ShapeObject has a
direct RULE child, and "Visible" otherwise, for all three shape kinds. -/
theorem c5_visibility_iff_rule (sn sk : String) (idx : Nat) (so : XmlElem)
    (st st' : ParseState) (h : stepShapeObject sn sk idx so st = some st')
    (e : String) (he : st'.canvas_elements = st.canvas_elements ++ [e]) :
    ∃ vis, (vis = "Collapsed" ↔ has_crule so = true) ∧
      (vis = "Visible" ↔ has_crule so = false) ∧
      ((∃ c w hh l t s tk f, e = rectElemString sn sk c w hh l t s tk f vis) ∨
       (∃ c l t r b, e = textElemString sn sk c l t r b vis) ∨
       (∃ c pts s tk f, e = polyElemString sn sk c pts s tk f vis)) := by
  obtain ⟨_, hor⟩ := stepShapeObject_spec h
  rcases hor with hsame | ⟨e', he', hprop⟩
  · rw [hsame] at he
    have : [e] = [] := List.self_eq_append_right.mp he
    exact (List.cons_ne_nil e [] this).elim
  · rw [he'] at he
    have h2 : [e'] = [e] := List.append_cancel_left he
    have h3 : e' = e := by simpa using h2
    subst h3
    refine ⟨if has_crule so then "Collapsed" else "Visible", ?_, ?_, hprop⟩
    · cases has_crule so <;> decide
    · cases has_crule so <;> decide

theorem c5_witness :
    ∃ vis, (vis = "Collapsed" ↔ has_crule c5so = true) ∧
      (vis = "Visible" ↔ has_crule c5so = false) ∧
      ((∃ c w hh l t s tk f,
          rectElemString "Foo" "42" 1 1 1 1 1 "#808080" "1" "#808080" "Collapsed"
            = rectElemString "Foo" "42" c w hh l t s tk f vis) ∨
       (∃ c l t r b, rectElemString "Foo" "42" 1 1 1 1 1 "#808080" "1" "#808080" "Collapsed"
            = textElemString "Foo" "42" c l t r b vis) ∨
       (∃ c pts s tk f, rectElemString "Foo" "42" 1 1 1 1 1 "#808080" "1" "#808080" "Collapsed"
            = polyElemString "Foo" "42" c pts s tk f vis)) :=
  c5_visibility_iff_rule "Foo" "42" 0 c5so st0 _ rfl
    (rectElemString "Foo" "42" 1 1 1 1 1 "#808080" "1" "#808080" "Collapsed") rfl

theorem c4_witness :
    ∃ st, parse_xml_run [] [] [] c4doc = some st ∧
      ((∃ sysname symbol_key c s tk f vis,
        rectElemString sysname symbol_key c (7 - 3) (5 - (-2)) 3 (-2) s tk f vis
          ∈ st.canvas_elements) ∧
      holdsLe st.min_x 3 ∧ holdsGe st.max_x 7 ∧
      holdsLe st.min_y (-2) ∧ holdsGe st.max_y 5) :=
  ⟨_, rfl, c4_rectangle_width_height_extent [] [] [] c4doc _ rfl
    c4vo (by rw [show viewObjectsOf c4doc = [c4vo] from rfl]; exact List.mem_singleton_self _)
    c4so (by rw [show shapeObjectsOf c4vo = [c4so] from rfl]; exact List.mem_singleton_self _)
    c4shape (txt "ClassName" "CRectangle")
    (el "RectShape" [txt "Left" "3", txt "Top" "-2", txt "Right" "7", txt "Bottom" "5"])
    rfl rfl rfl rfl 3 7 (-2) 5 rfl rfl rfl rfl⟩

theorem c10_witness :
    ∃ st', stepShapeObject "default" "0" 0 c10so st0 = some st' ∧
      st'.counter = st0.counter + 1 ∧
      st'.canvas_elements = st0.canvas_elements ++
        [polyElemString "default" "0" (st0.counter + 1) "" (extract_visuals c10shape).1
          (extract_visuals c10shape).2.1 (extract_visuals c10shape).2.2
          (if has_crule c10so then "Collapsed" else "Visible")] ∧
      st'.min_x = st0.min_x ∧ st'.max_x = st0.max_x ∧
      st'.min_y = st0.min_y ∧ st'.max_y = st0.max_y :=
  @c10_empty_polygon_emits "default" "0" 0 c10so c10shape (txt "ClassName" "CPolygon") st0
    rfl rfl (Or.inl rfl) rfl

/-- C7: the validator reports zero mismatches exactly in the claimed
membership sense: no mismatch at all when every non-root source tag is
among the output tags and every attribute value among the output values;
and at least one mismatch as soon as one non-root source element carries
an attribute value missing from the output value set. -/
theorem c7_validator_set_membership (root xaml_root : XmlElem) :
    ((∀ e ∈ root.iterAll, lowerStr e.tag ≠ "root" →
        e.tag ∈ xamlTags xaml_root ∧ ∀ p ∈ e.attrib, p.2 ∈ xamlValues xaml_root) →
      validate_conversion root xaml_root = []) ∧
    (∀ e ∈ root.iterAll, lowerStr e.tag ≠ "root" →
      ∀ p ∈ e.attrib, p.2 ∉ xamlValues xaml_root →
      validate_conversion root xaml_root ≠ []) := by
  constructor
  · intro hall
    unfold validate_conversion
    rw [List.flatMap_eq_nil_iff]
    intro e he
    unfold elemMismatches
    by_cases hroot : lowerStr e.tag = "root"
    · rw [if_pos hroot]
    · rw [if_neg hroot]
      obtain ⟨htag, hvals⟩ := hall e he hroot
      rw [if_pos htag]
      rw [List.nil_append, List.filterMap_eq_nil_iff]
      intro p hp
      rw [if_pos (hvals p hp)]
  · intro e he hroot p hp hnot
    have hmem : (e.tag ++ " - Missing value: " ++ p.1 ++ "=" ++ p.2) ∈
        validate_conversion root xaml_root := by
      unfold validate_conversion
      apply List.mem_flatMap.mpr
      refine ⟨e, he, ?_⟩
      unfold elemMismatches
      rw [if_neg hroot]
      apply List.mem_append_right
      apply List.mem_filterMap.mpr
      exact ⟨p, hp, by rw [if_neg hnot]⟩
    exact List.ne_nil_of_mem hmem

theorem c7_witness :
    validate_conversion c7srcA c7outA = [] ∧ validate_conversion c7srcB c7outB ≠ [] := by
  constructor
  · exact (c7_validator_set_membership c7srcA c7outA).1 (by decide)
  · refine (c7_validator_set_membership c7srcB c7outB).2 c7rectB ?_ (by decide)
      ("Width", "10") (by decide) (by decide)
    rw [show c7srcB.iterAll = [c7srcB, c7rectB] from rfl]
    exact List.mem_cons_of_mem _ (List.mem_singleton_self _)
